import Mathlib

/-!
Verification of the web-audio-recorder core: a shallow embedding of the
WAV container encoder (`WavAudioEncoder`), the two opaque-codec wrappers
(`OggVorbisEncoderWrapper`, `Mp3LameEncoderWrapper`) and the capture
state machine (`WebAudioRecorder`), together with theorems settling the
specification claims about them.

Conventions of the embedding:
* JavaScript numbers that can be `NaN`/`Infinity` are modelled by `JsNum`;
  sample values that are known finite are modelled as exact rationals.
* Byte buffers are `List ℕ` with each entry < 256; `DataView.setUint16`/
  `setUint32`/`setInt16` wrap modulo 2^16 / 2^32 as in JavaScript.
* Methods that throw become `Except`-valued functions; a thrown error
  carries no mutated state, mirroring the sources where every `throw`
  precedes the corresponding field assignments.
* Rational constants written `0.9999`, `0.5`, `-0.1` in the source are
  modelled by their exact decimal values via `mkRat`.
-/

/-- Model of a JavaScript number as seen by the encoder wrappers: a
finite value (an exact rational) or one of the non-finite IEEE values. -/
inductive JsNum where
  | finite (val : ℚ)
  | nan
  | posInf
  | negInf
deriving DecidableEq, Repr

/-- `Number.isFinite`. -/
def JsNum.isFinite : JsNum → Bool
  | .finite _ => true
  | _ => false

/-- `Number.isInteger`: finite with an integral value. -/
def JsNum.isInteger : JsNum → Bool
  | .finite v => v.den = 1
  | _ => false

/-- The finite value carried by a JS number (`0` for the non-finite
values; only consulted after an `isFinite` test, as in the sources). -/
def JsNum.val : JsNum → ℚ
  | .finite v => v
  | _ => 0

/-- The JavaScript comparison `x <= 0` (false for `NaN`, true for
`-Infinity`). -/
def JsNum.leZero : JsNum → Bool
  | .finite v => decide (v ≤ 0)
  | .negInf => true
  | _ => false

/-- One captured frame: the list of per-channel sample buffers.  On the
WAV path samples are modelled as exact rationals. -/
abbrev Frame := List (List ℚ)

/-- A channel of JS float samples, as delivered to the opaque-codec
wrappers (these inspect finiteness, so `JsNum` is kept). -/
abbrev JsChan := List JsNum

/-- Length of a frame's first channel, `0` when the frame has no
channels; `WavAudioEncoder.finish` counts frames this way. -/
def firstChanLen (f : Frame) : ℕ :=
  match f with
  | [] => 0
  | c :: _ => c.length

/-- Truncation toward zero of `s * k` for a rational `s` and integer
scale `k`, exactly `(s.num * k).tdiv s.den`; this is the integer that
`DataView.setInt16` extracts from the scaled sample. -/
def jsTruncMul (s : ℚ) (k : ℤ) : ℤ := (s.num * k).tdiv s.den

/-- ceil of a rational computed from numerator and denominator
(`Math.ceil`); kept gcd-free so it evaluates in the kernel. -/
def ratCeil (q : ℚ) : ℤ := -((-q.num).fdiv q.den)

/-- Little-endian bytes written by `DataView.setUint16` (wraps mod 2^16). -/
def u16le (v : ℕ) : List ℕ := [v % 256, v / 256 % 256]

/-- Little-endian bytes written by `DataView.setUint32` (wraps mod 2^32). -/
def u32le (v : ℕ) : List ℕ :=
  [v % 256, v / 256 % 256, v / 65536 % 256, v / 16777216 % 256]

/-- ASCII bytes of "RIFF". -/
def asciiRIFF : List ℕ := [82, 73, 70, 70]

/-- ASCII bytes of "WAVE". -/
def asciiWAVE : List ℕ := [87, 65, 86, 69]

/-- ASCII bytes of "fmt ". -/
def asciiFmt : List ℕ := [102, 109, 116, 32]

/-- ASCII bytes of "data". -/
def asciiData : List ℕ := [100, 97, 116, 97]

/-- Little-endian value of the first two bytes of a list. -/
def leVal16 (l : List ℕ) : ℕ := l.getD 0 0 + 256 * l.getD 1 0

/-- Little-endian value of the first four bytes of a list. -/
def leVal32 (l : List ℕ) : ℕ :=
  l.getD 0 0 + 256 * l.getD 1 0 + 65536 * l.getD 2 0 + 16777216 * l.getD 3 0

/-- The 16-bit little-endian field of a byte blob at a given offset. -/
def read16 (l : List ℕ) (off : ℕ) : ℕ := leVal16 (l.drop off)

/-- The 32-bit little-endian field of a byte blob at a given offset. -/
def read32 (l : List ℕ) (off : ℕ) : ℕ := leVal32 (l.drop off)

/-! ## WavAudioEncoder (part_002) -/

/-- State of a `WavAudioEncoder`: configuration plus the ordered
accumulation list fed by `encode`. -/
structure WavState where
  sampleRate : ℕ
  numChannels : ℕ
  buffers : List Frame
deriving DecidableEq, Repr

/-- Serialization of one sample (part_002 lines 120-124): clamp to
[-1, 1] (`Math.max(-1, Math.min(1, s))`), scale by 0x8000 when negative
else 0x7FFF, truncate toward zero as `setInt16` does, and emit two
little-endian bytes of the 16-bit two's-complement representation. -/
def WavAudioEncoder.sampleBytes (x : ℚ) : List ℕ :=
  let s : ℚ := if x < -1 then -1 else if 1 < x then 1 else x
  let scaled : ℤ := if s < 0 then jsTruncMul s 32768 else jsTruncMul s 32767
  let m : ℕ := (scaled % 65536).toNat
  [m % 256, m / 256]

/-- The interleaved PCM16 bytes of one frame: the sample-major/channel
double loop of `WavAudioEncoder.finish` (part_002 lines 113-126). -/
def WavAudioEncoder.frameDataBytes (numChannels : ℕ) (f : Frame) : List ℕ :=
  (List.range (firstChanLen f)).flatMap fun j =>
    (List.range numChannels).flatMap fun ch =>
      WavAudioEncoder.sampleBytes ((f.getD ch []).getD j 0)

/-- The per-frame equal-length check of `finish` (part_002 lines
107-111): each channel index below `numChannels` must exist in the frame
and have the first channel's length (a missing channel aborts in JS just
like a length mismatch does, so both are modelled as a failed check). -/
def WavAudioEncoder.frameChannelsOk (numChannels : ℕ) (f : Frame) : Bool :=
  (List.range numChannels).all fun ch => (f.getD ch []).length == firstChanLen f

/-- `totalFrames` of `finish` (part_002 lines 55-60): the sum of the
first-channel lengths.  The source guards each addend with
`length > 0 && buffers[i][0].length > 0`, which only skips addends that
are zero anyway. -/
def WavAudioEncoder.totalFrames : List Frame → ℕ
  | [] => 0
  | f :: rest => firstChanLen f + WavAudioEncoder.totalFrames rest

/-- The data-writing loop of `finish` (part_002 lines 95-127): frames
with no channels or an empty first channel are skipped, a frame failing
the equal-length check throws, and every other frame contributes its
interleaved PCM16 bytes in order. -/
def WavAudioEncoder.writeFrames (numChannels : ℕ) : List Frame → Except String (List ℕ)
  | [] => .ok []
  | f :: rest =>
    if firstChanLen f = 0 then
      WavAudioEncoder.writeFrames numChannels rest
    else if WavAudioEncoder.frameChannelsOk numChannels f then
      match WavAudioEncoder.writeFrames numChannels rest with
      | .error e => .error e
      | .ok tail => .ok (WavAudioEncoder.frameDataBytes numChannels f ++ tail)
    else
      .error "Channel has different length in frame"

/-- The 44-byte RIFF/WAVE header written by `finish` (part_002 lines
74-92); the writes target consecutive offsets 0,4,8,12,16,20,22,24,28,
32,34,36,40, so the header is the flat concatenation
`asciiRIFF ++ u32le (fileSize - 8) ++ asciiWAVE ++ asciiFmt ++ u32le 16
++ u16le 1 ++ u16le numChannels ++ u32le sampleRate ++
u32le (sampleRate * numChannels * 2) ++ u16le (numChannels * 2) ++
u16le 16 ++ asciiData ++ u32le dataSize`, written out literally here
(the equality with that concatenation is `header_eq_concat` below). -/
def WavAudioEncoder.header (fileSize dataSize sampleRate numChannels : ℕ) : List ℕ :=
  [82, 73, 70, 70,
   (fileSize - 8) % 256, (fileSize - 8) / 256 % 256,
   (fileSize - 8) / 65536 % 256, (fileSize - 8) / 16777216 % 256,
   87, 65, 86, 69,
   102, 109, 116, 32,
   16, 0, 0, 0,
   1, 0,
   numChannels % 256, numChannels / 256 % 256,
   sampleRate % 256, sampleRate / 256 % 256,
   sampleRate / 65536 % 256, sampleRate / 16777216 % 256,
   sampleRate * numChannels * 2 % 256, sampleRate * numChannels * 2 / 256 % 256,
   sampleRate * numChannels * 2 / 65536 % 256, sampleRate * numChannels * 2 / 16777216 % 256,
   numChannels * 2 % 256, numChannels * 2 / 256 % 256,
   16, 0,
   100, 97, 116, 97,
   dataSize % 256, dataSize / 256 % 256,
   dataSize / 65536 % 256, dataSize / 16777216 % 256]

lemma header_eq_concat (fileSize dataSize sampleRate numChannels : ℕ) :
    WavAudioEncoder.header fileSize dataSize sampleRate numChannels
      = asciiRIFF ++ u32le (fileSize - 8) ++ asciiWAVE ++
        asciiFmt ++ u32le 16 ++ u16le 1 ++ u16le numChannels ++ u32le sampleRate ++
        u32le (sampleRate * numChannels * 2) ++ u16le (numChannels * 2) ++ u16le 16 ++
        asciiData ++ u32le dataSize := rfl

/-- `WavAudioEncoder.finish` (part_002 lines 49-138): fails on an empty
accumulation or zero total frames, otherwise serializes header plus
interleaved data.  (The defensive in-bounds offset check of lines
116-118 can never fire because the buffer is sized from the same
counts.) -/
def WavAudioEncoder.finish (s : WavState) : Except String (List ℕ) :=
  if s.buffers.length = 0 then .error "No audio data to encode"
  else if WavAudioEncoder.totalFrames s.buffers = 0 then .error "No valid audio data to encode"
  else
    let dataSize := WavAudioEncoder.totalFrames s.buffers * s.numChannels * 2
    match WavAudioEncoder.writeFrames s.numChannels s.buffers with
    | .error e => .error e
    | .ok data =>
      .ok (WavAudioEncoder.header (44 + dataSize) dataSize s.sampleRate s.numChannels ++ data)

/-- `WavAudioEncoder.encode` (part_002 lines 34-41): the only validation
is the channel count; an accepted frame is copied and appended to the
accumulation list. -/
def WavAudioEncoder.encode (s : WavState) (frame : Frame) : Except String WavState :=
  if frame.length ≠ s.numChannels then
    .error "Expected channel count mismatch"
  else
    .ok { s with buffers := s.buffers ++ [frame] }

/-- `WavAudioEncoder.cancel` (part_002 lines 143-145): clears the
accumulation list and nothing else. -/
def WavAudioEncoder.cancel (s : WavState) : WavState := { s with buffers := [] }

/-! ## OggVorbisEncoderWrapper (src/encoders/OggVorbisEncoder.ts) -/

/-- Wrapper state: configuration, whether `this.encoder` is non-null,
and the running totals. -/
structure OggState where
  sampleRate : ℕ
  numChannels : ℕ
  quality : ℚ
  encoderLive : Bool
  bufferCount : ℕ
  totalSamples : ℕ
deriving DecidableEq, Repr

/-- The conservative clamp bound `SAFE_MAX = 0.9999` of the OGG wrapper. -/
def OGG_SAFE_MAX : ℚ := mkRat 9999 10000

/-- Sample sanitization of the OGG wrapper (OggVorbisEncoder.ts lines
115-136): non-finite values become `0`, finite values are clamped into
`[-SAFE_MAX, SAFE_MAX]`. -/
def OggVorbisEncoderWrapper.sanitizeSample (v : JsNum) : ℚ :=
  match v with
  | .finite q =>
    if OGG_SAFE_MAX < q then OGG_SAFE_MAX
    else if q < -OGG_SAFE_MAX then -OGG_SAFE_MAX
    else q
  | _ => 0

/-- Channel adaptation of the OGG wrapper (OggVorbisEncoder.ts lines
88-113): pass-through on a match, duplicate a single channel for stereo,
keep only the first channel for mono, and otherwise fill index-wise,
repeating the last available channel. -/
def OggVorbisEncoderWrapper.adaptChannels (numChannels : ℕ) (buffers : List JsChan) :
    List JsChan :=
  if buffers.length = numChannels then
    (List.range numChannels).map fun i => buffers.getD i []
  else if buffers.length = 1 ∧ numChannels = 2 then
    [buffers.getD 0 [], buffers.getD 0 []]
  else if 2 ≤ buffers.length ∧ numChannels = 1 then
    [buffers.getD 0 []]
  else
    (List.range numChannels).map fun i =>
      if i < buffers.length then buffers.getD i []
      else buffers.getD (buffers.length - 1) []

/-- `OggVorbisEncoderWrapper.encode` (OggVorbisEncoder.ts lines 76-145):
guard on a live encoder, silently accept an empty buffer list, otherwise
adapt the channels, sanitize every sample, deliver the result to the
external codec and bump the totals.  Returns the new wrapper state and
the buffer list delivered to the external codec (`none` when nothing was
delivered). -/
def OggVorbisEncoderWrapper.encode (s : OggState) (buffers : List JsChan) :
    Except String (OggState × Option (List (List ℚ))) :=
  if s.encoderLive = false then .error "Encoder is not initialized"
  else if buffers.length = 0 then .ok (s, none)
  else
    let safe := (OggVorbisEncoderWrapper.adaptChannels s.numChannels buffers).map
      fun c => c.map OggVorbisEncoderWrapper.sanitizeSample
    .ok ({ s with bufferCount := s.bufferCount + 1,
                  totalSamples := s.totalSamples + (safe.getD 0 []).length }, some safe)

/-- Observable outcome of `OggVorbisEncoderWrapper.finish`. -/
inductive OggFinishOutcome where
  | notInit
  | noData
  | finalized (paddedSilence : ℕ)
deriving DecidableEq, Repr

/-- `MIN_SAMPLES = sampleRate * 0.5` (OggVorbisEncoder.ts line 156). -/
def OggVorbisEncoderWrapper.minSamples (sampleRate : ℕ) : ℚ := mkRat sampleRate 2

/-- `Math.ceil(MIN_SAMPLES - totalSamples)` (OggVorbisEncoder.ts line
160), computed gcd-free as `ceil((sampleRate - 2*totalSamples) / 2)`. -/
def OggVorbisEncoderWrapper.missingSamples (sampleRate totalSamples : ℕ) : ℤ :=
  ratCeil (mkRat ((sampleRate : ℤ) - 2 * totalSamples) 2)

/-- `OggVorbisEncoderWrapper.finish` (OggVorbisEncoder.ts lines
150-191): below the half-second minimum it encodes the missing number of
zero samples per channel (when that number is positive and below ten
seconds worth) and then finalizes; the `NoData` throw is reached only
when no padding was performed and no buffer was ever encoded.  `finish`
assigns no field, so the wrapper state afterwards is the input state. -/
def OggVorbisEncoderWrapper.finish (s : OggState) : OggFinishOutcome :=
  if s.encoderLive = false then .notInit
  else if (s.totalSamples : ℚ) < OggVorbisEncoderWrapper.minSamples s.sampleRate then
    let missing := OggVorbisEncoderWrapper.missingSamples s.sampleRate s.totalSamples
    if 0 < missing ∧ missing < (s.sampleRate : ℤ) * 10 then
      .finalized missing.toNat
    else if s.bufferCount = 0 then .noData
    else .finalized 0
  else .finalized 0

/-- `OggVorbisEncoderWrapper.cancel` (OggVorbisEncoder.ts lines
196-207): nulls the encoder and resets the totals. -/
def OggVorbisEncoderWrapper.cancel (s : OggState) : OggState :=
  { s with encoderLive := false, bufferCount := 0, totalSamples := 0 }

/-! ## Mp3LameEncoderWrapper (part_003, first revision) -/

/-- Wrapper state of the MP3 LAME wrapper. -/
structure Mp3State where
  sampleRate : ℕ
  numChannels : ℕ
  bitrate : ℚ
  encoderLive : Bool
  bufferCount : ℕ
  totalSamples : ℕ
deriving DecidableEq, Repr

/-- Sample sanitization of the MP3 wrapper (part_003 lines 147-174):
non-finite values become `0`, finite values are clamped into the full
range `[-1.0, 1.0]` (`Math.max(-1.0, Math.min(1.0, value))`). -/
def Mp3LameEncoderWrapper.sanitizeSample (v : JsNum) : ℚ :=
  match v with
  | .finite q => if q < -1 then -1 else if 1 < q then 1 else q
  | _ => 0

/-- Channel adaptation of the MP3 wrapper (part_003 lines 97-118):
pass-through on a match, duplicate a single channel for stereo, keep the
first channel of a stereo frame for mono, pad with copies of the last
channel when short, truncate when long. -/
def Mp3LameEncoderWrapper.adaptChannels (numChannels : ℕ) (buffers : List JsChan) :
    List JsChan :=
  if buffers.length = numChannels then buffers
  else if buffers.length = 1 ∧ numChannels = 2 then
    [buffers.getD 0 [], buffers.getD 0 []]
  else if buffers.length = 2 ∧ numChannels = 1 then
    [buffers.getD 0 []]
  else if buffers.length < numChannels then
    if buffers.length = 0 then buffers
    else buffers ++ List.replicate (numChannels - buffers.length) (buffers.getLast?.getD [])
  else if numChannels < buffers.length then buffers.take numChannels
  else buffers

/-- `Mp3LameEncoderWrapper.encode` (part_003 lines 88-190): guard on a
live encoder, adapt channels, then validate the channel count and the
equal channel lengths (throwing on failure), silently return on an empty
frame, and otherwise sanitize and deliver.  Returns the new state and
the delivered buffer list (`none` when nothing was delivered). -/
def Mp3LameEncoderWrapper.encode (s : Mp3State) (buffers : List JsChan) :
    Except String (Mp3State × Option (List (List ℚ))) :=
  if s.encoderLive = false then .error "Encoder is not initialized"
  else
    let processed := Mp3LameEncoderWrapper.adaptChannels s.numChannels buffers
    if processed.length ≠ s.numChannels then .error "Failed to adjust channels"
    else if 0 < processed.length then
      if (processed.all fun c => c.length == (processed.getD 0 []).length) = false then
        .error "Channel has mismatched length"
      else if (processed.getD 0 []).length = 0 then .ok (s, none)
      else
        let safe := processed.map fun c => c.map Mp3LameEncoderWrapper.sanitizeSample
        .ok ({ s with bufferCount := s.bufferCount + 1,
                      totalSamples := s.totalSamples + (safe.getD 0 []).length }, some safe)
    else .ok (s, none)

/-- Observable outcome of `Mp3LameEncoderWrapper.finish`. -/
inductive Mp3FinishOutcome where
  | notInit
  | finalized (paddedSilence : ℕ)
deriving DecidableEq, Repr

/-- `Mp3LameEncoderWrapper.finish` (part_003 lines 198-226): warns when
`bufferCount = 0` but always calls the external finalize directly; it
never synthesizes silence and assigns no field. -/
def Mp3LameEncoderWrapper.finish (s : Mp3State) : Mp3FinishOutcome :=
  if s.encoderLive = false then .notInit
  else .finalized 0

/-- `Mp3LameEncoderWrapper.cancel` (part_003 lines 231-239): nulls the
encoder and resets the totals. -/
def Mp3LameEncoderWrapper.cancel (s : Mp3State) : Mp3State :=
  { s with encoderLive := false, bufferCount := 0, totalSamples := 0 }

/-! ## Constructor validation of the opaque-codec wrappers -/

/-- The two validation errors thrown by the wrapper constructors. -/
inductive CtorError where
  | invalidSampleRate
  | invalidNumChannels
deriving DecidableEq, Repr

/-- Parameter validation of the `OggVorbisEncoderWrapper` constructor
(OggVorbisEncoder.ts lines 40-59): rejects a non-finite or non-positive
sample rate and a channel count that is not the integer 1 or 2; the
quality option defaults to 0.5, falls back to 0.5 when non-finite, and
is otherwise clamped into `[-0.1, 1.0]`.  Returns the resolved quality. -/
def OggVorbisEncoderWrapper.validateCtor (sampleRate numChannels : JsNum)
    (quality : Option JsNum) : Except CtorError ℚ :=
  if sampleRate.isFinite = false ∨ sampleRate.leZero = true then
    .error .invalidSampleRate
  else if numChannels.isInteger = false ∨ numChannels.val < 1 ∨ 2 < numChannels.val then
    .error .invalidNumChannels
  else
    let rawQuality := quality.getD (.finite (mkRat 1 2))
    if rawQuality.isFinite = false then .ok (mkRat 1 2)
    else
      .ok (if rawQuality.val < mkRat (-1) 10 then mkRat (-1) 10
           else if 1 < rawQuality.val then 1
           else rawQuality.val)

/-- Parameter validation of the `Mp3LameEncoderWrapper` constructor
(part_003 lines 40-64): the same sample-rate and channel-count guards;
the bitrate option defaults to 128, falls back to 128 when non-finite or
non-integral, and is otherwise clamped into `[32, 320]`.  Returns the
resolved bitrate. -/
def Mp3LameEncoderWrapper.validateCtor (sampleRate numChannels : JsNum)
    (bitrate : Option JsNum) : Except CtorError ℚ :=
  if sampleRate.isFinite = false ∨ sampleRate.leZero = true then
    .error .invalidSampleRate
  else if numChannels.isInteger = false ∨ numChannels.val < 1 ∨ 2 < numChannels.val then
    .error .invalidNumChannels
  else
    let rawBitrate := bitrate.getD (.finite 128)
    if rawBitrate.isFinite = false ∨ rawBitrate.isInteger = false then .ok 128
    else
      .ok (if rawBitrate.val < 32 then 32
           else if 320 < rawBitrate.val then 320
           else rawBitrate.val)

/-! ## WebAudioRecorder (part_000) -/

/-- The recorder status enum (core/types.ts). -/
inductive RecorderStatus where
  | inactive
  | recording
  | paused
  | processing
  | complete
  | errorState
deriving DecidableEq, Repr

/-- The fields of the recorder that the `start` guards must leave
untouched (part_000 lines 22-35); the Web-Audio node handles are
external objects summarized by their presence. -/
structure SessionState where
  status : RecorderStatus
  hasEncoder : Bool
  stream : Option ℕ
  startTime : ℕ
deriving DecidableEq, Repr

/-- The two guard errors of `WebAudioRecorder.start`. -/
inductive StartError where
  | alreadyRecording
  | stillProcessing
deriving DecidableEq, Repr

/-- `WebAudioRecorder.start` (part_000 lines 65-126): the two guard
throws precede every field assignment, so a failed `start` leaves the
recorder unchanged; on success the stream is bound, the status becomes
RECORDING and the start time is recorded (the Web-Audio node wiring is
an external effect outside the model). -/
def WebAudioRecorder.start (s : SessionState) (stream now : ℕ) :
    Except StartError SessionState :=
  if s.status = RecorderStatus.recording then .error .alreadyRecording
  else if s.status = RecorderStatus.processing then .error .stillProcessing
  else .ok { s with stream := some stream, status := RecorderStatus.recording, startTime := now }

/-- The `onaudioprocess` callback registered by `start` (part_000 lines
98-120), abstracted over the bound encoder: returns the encoder state
after the callback, whether `encoder.encode` was invoked, and whether an
error was surfaced through `handleError`. -/
def WebAudioRecorder.onAudioProcess {σ : Type} (status : RecorderStatus) (numChannels : ℕ)
    (encode : σ → Frame → Except String σ) (es : σ) (input : Frame) :
    σ × Bool × Bool :=
  if status ≠ RecorderStatus.recording then (es, false, false)
  else
    let buffers := (List.range numChannels).map fun ch => input.getD ch []
    match encode es buffers with
    | .ok es2 => (es2, true, false)
    | .error _ => (es, true, true)

set_option maxRecDepth 100000
set_option maxHeartbeats 2000000

/-! ## General helper lemmas -/

lemma sum_map_const {α : Type} (l : List α) (k : ℕ) : (l.map fun _ => k).sum = l.length * k := by
  induction l with
  | nil => simp
  | cons a t ih => simp [ih, Nat.succ_mul, Nat.add_comm]

lemma length_flatMap_const {α : Type} (l : List α) (g : α → List ℕ) (k : ℕ)
    (h : ∀ a ∈ l, (g a).length = k) : (l.flatMap g).length = l.length * k := by
  rw [List.length_flatMap]
  have hmap : l.map (fun a => (g a).length) = l.map fun _ => k := List.map_congr_left h
  calc (l.map (List.length ∘ g)).sum = (l.map fun _ => k).sum := by
        rw [show List.length ∘ g = fun a => (g a).length from rfl, hmap]
    _ = l.length * k := sum_map_const l k

lemma range_map_getD {α : Type} (l : List α) (d : α) :
    ((List.range l.length).map fun i => l.getD i d) = l := by
  apply List.ext_getElem
  · simp
  · intro i h1 h2
    simp [List.getD_eq_getElem l d h2, List.getElem?_eq_getElem h2]

lemma range_map_getD_take {α : Type} (l : List α) (d : α) (m : ℕ) (h : m ≤ l.length) :
    ((List.range m).map fun i => l.getD i d) = l.take m := by
  apply List.ext_getElem
  · simp [Nat.min_eq_left h]
  · intro i h1 h2
    simp only [List.length_map, List.length_range] at h1
    have hlt : i < l.length := lt_of_lt_of_le h1 h
    simp [List.getD_eq_getElem l d hlt, List.getElem?_eq_getElem hlt, List.getElem_take]

/-! ## Lemmas about the WAV serialization -/

lemma sampleBytes_length (x : ℚ) : (WavAudioEncoder.sampleBytes x).length = 2 := rfl

lemma frameDataBytes_length (nc : ℕ) (f : Frame) :
    (WavAudioEncoder.frameDataBytes nc f).length = firstChanLen f * (nc * 2) := by
  unfold WavAudioEncoder.frameDataBytes
  rw [length_flatMap_const _ _ (nc * 2)]
  · simp
  · intro j _
    rw [length_flatMap_const _ _ 2]
    · simp
    · intro ch _
      exact sampleBytes_length _

/-- A frame as `encode` guarantees it for a `numChannels`-channel
encoder, with all channels the length of the first. -/
def goodFrame (nc : ℕ) (f : Frame) : Prop :=
  f.length = nc ∧ ∀ c ∈ f, c.length = firstChanLen f

instance (nc : ℕ) (f : Frame) : Decidable (goodFrame nc f) := by
  unfold goodFrame; infer_instance

lemma frameChannelsOk_of_good (nc : ℕ) (f : Frame) (h : goodFrame nc f) :
    WavAudioEncoder.frameChannelsOk nc f = true := by
  unfold WavAudioEncoder.frameChannelsOk
  rw [List.all_eq_true]
  intro ch hch
  rw [List.mem_range] at hch
  have hlt : ch < f.length := h.1 ▸ hch
  have hmem : f.getD ch [] ∈ f := by
    rw [List.getD_eq_getElem f [] hlt]
    exact List.getElem_mem hlt
  have := h.2 _ hmem
  simpa using this

lemma writeFrames_ok (nc : ℕ) (bufs : List Frame) (h : ∀ f ∈ bufs, goodFrame nc f) :
    WavAudioEncoder.writeFrames nc bufs
      = .ok (bufs.flatMap (WavAudioEncoder.frameDataBytes nc)) := by
  induction bufs with
  | nil => rfl
  | cons f rest ih =>
    have hf := h f (by simp)
    have hrest : ∀ g ∈ rest, goodFrame nc g := fun g hg => h g (by simp [hg])
    by_cases h0 : firstChanLen f = 0
    · have hempty : WavAudioEncoder.frameDataBytes nc f = [] := by
        unfold WavAudioEncoder.frameDataBytes
        rw [h0]
        rfl
      rw [WavAudioEncoder.writeFrames, if_pos h0, ih hrest]
      simp [hempty]
    · rw [WavAudioEncoder.writeFrames, if_neg h0,
        if_pos (frameChannelsOk_of_good nc f hf), ih hrest]
      simp

lemma sum_map_mul_right {α : Type} (l : List α) (g : α → ℕ) (k : ℕ) :
    (l.map fun a => g a * k).sum = (l.map g).sum * k := by
  induction l with
  | nil => simp
  | cons a t ih => simp [ih, Nat.add_mul]

lemma totalFrames_eq_sum (bufs : List Frame) :
    WavAudioEncoder.totalFrames bufs = (bufs.map firstChanLen).sum := by
  induction bufs with
  | nil => rfl
  | cons f rest ih => simp [WavAudioEncoder.totalFrames, ih]

lemma flatMap_frameDataBytes_length (nc : ℕ) (bufs : List Frame) :
    (bufs.flatMap (WavAudioEncoder.frameDataBytes nc)).length
      = WavAudioEncoder.totalFrames bufs * (nc * 2) := by
  rw [List.length_flatMap]
  have hmap : bufs.map (List.length ∘ WavAudioEncoder.frameDataBytes nc)
      = bufs.map fun f => firstChanLen f * (nc * 2) :=
    List.map_congr_left fun f _ => frameDataBytes_length nc f
  rw [hmap, sum_map_mul_right, ← totalFrames_eq_sum]

lemma header_length (A B C D : ℕ) : (WavAudioEncoder.header A B C D).length = 44 := rfl

lemma header_take_riff (A B C D : ℕ) (rest : List ℕ) :
    ((WavAudioEncoder.header A B C D ++ rest).take 4) = asciiRIFF := rfl

lemma header_take_wave (A B C D : ℕ) (rest : List ℕ) :
    (((WavAudioEncoder.header A B C D ++ rest).drop 8).take 4) = asciiWAVE := rfl

lemma header_take_fmt (A B C D : ℕ) (rest : List ℕ) :
    (((WavAudioEncoder.header A B C D ++ rest).drop 12).take 4) = asciiFmt := rfl

lemma header_take_data (A B C D : ℕ) (rest : List ℕ) :
    (((WavAudioEncoder.header A B C D ++ rest).drop 36).take 4) = asciiData := rfl

lemma header_drop_44 (A B C D : ℕ) (rest : List ℕ) :
    ((WavAudioEncoder.header A B C D ++ rest).drop 44) = rest := rfl

lemma header_field_4 (A B C D : ℕ) (rest : List ℕ) (h : A - 8 < 4294967296) :
    read32 (WavAudioEncoder.header A B C D ++ rest) 4 = A - 8 := by
  have e : read32 (WavAudioEncoder.header A B C D ++ rest) 4
      = (A - 8) % 256 + 256 * ((A - 8) / 256 % 256) + 65536 * ((A - 8) / 65536 % 256)
        + 16777216 * ((A - 8) / 16777216 % 256) := rfl
  rw [e]; omega

lemma header_field_16 (A B C D : ℕ) (rest : List ℕ) :
    read32 (WavAudioEncoder.header A B C D ++ rest) 16 = 16 := rfl

lemma header_field_20 (A B C D : ℕ) (rest : List ℕ) :
    read16 (WavAudioEncoder.header A B C D ++ rest) 20 = 1 := rfl

lemma header_field_22 (A B C D : ℕ) (rest : List ℕ) (h : D < 65536) :
    read16 (WavAudioEncoder.header A B C D ++ rest) 22 = D := by
  have e : read16 (WavAudioEncoder.header A B C D ++ rest) 22
      = D % 256 + 256 * (D / 256 % 256) := rfl
  rw [e]; omega

lemma header_field_24 (A B C D : ℕ) (rest : List ℕ) (h : C < 4294967296) :
    read32 (WavAudioEncoder.header A B C D ++ rest) 24 = C := by
  have e : read32 (WavAudioEncoder.header A B C D ++ rest) 24
      = C % 256 + 256 * (C / 256 % 256) + 65536 * (C / 65536 % 256)
        + 16777216 * (C / 16777216 % 256) := rfl
  rw [e]; omega

lemma header_field_28 (A B C D : ℕ) (rest : List ℕ) (h : C * D * 2 < 4294967296) :
    read32 (WavAudioEncoder.header A B C D ++ rest) 28 = C * D * 2 := by
  have e : read32 (WavAudioEncoder.header A B C D ++ rest) 28
      = C * D * 2 % 256 + 256 * (C * D * 2 / 256 % 256) + 65536 * (C * D * 2 / 65536 % 256)
        + 16777216 * (C * D * 2 / 16777216 % 256) := rfl
  rw [e]; omega

lemma header_field_32 (A B C D : ℕ) (rest : List ℕ) (h : D * 2 < 65536) :
    read16 (WavAudioEncoder.header A B C D ++ rest) 32 = D * 2 := by
  have e : read16 (WavAudioEncoder.header A B C D ++ rest) 32
      = D * 2 % 256 + 256 * (D * 2 / 256 % 256) := rfl
  rw [e]; omega

lemma header_field_34 (A B C D : ℕ) (rest : List ℕ) :
    read16 (WavAudioEncoder.header A B C D ++ rest) 34 = 16 := rfl

lemma header_field_40 (A B C D : ℕ) (rest : List ℕ) (h : B < 4294967296) :
    read32 (WavAudioEncoder.header A B C D ++ rest) 40 = B := by
  have e : read32 (WavAudioEncoder.header A B C D ++ rest) 40
      = B % 256 + 256 * (B / 256 % 256) + 65536 * (B / 65536 % 256)
        + 16777216 * (B / 16777216 % 256) := rfl
  rw [e]; omega

/-- C1 (amended with: the accumulation must contain at least one
nonzero-length frame, and the header fields are 16/32-bit so the stated
values must fit them): with every accumulated frame carrying the
configured channel count and equal-length channels, `finish` returns a
blob of exactly `44 + totalFrames * numChannels * 2` bytes whose first
44 bytes are the little-endian RIFF/WAVE header — fileSize-8 at offset
4, fmt-chunk size 16 at offset 16, PCM tag 1 at offset 20, the channel
count at 22, the sample rate at 24, the byte rate at 28, the block align
at 32, bits-per-sample 16 at 34 and dataSize at 40 — followed by the
interleaved clamped-and-scaled 16-bit samples. -/
theorem wav_finish_serialization (s : WavState)
    (hne : s.buffers ≠ [])
    (hgood : ∀ f ∈ s.buffers, goodFrame s.numChannels f)
    (htf : 0 < WavAudioEncoder.totalFrames s.buffers)
    (hnc : s.numChannels * 2 < 65536)
    (hsr : s.sampleRate < 4294967296)
    (hbr : s.sampleRate * s.numChannels * 2 < 4294967296)
    (hfs : 44 + WavAudioEncoder.totalFrames s.buffers * s.numChannels * 2 < 4294967296) :
    ∃ blob, WavAudioEncoder.finish s = .ok blob
      ∧ blob.length = 44 + WavAudioEncoder.totalFrames s.buffers * s.numChannels * 2
      ∧ blob.take 4 = asciiRIFF
      ∧ read32 blob 4 = 44 + WavAudioEncoder.totalFrames s.buffers * s.numChannels * 2 - 8
      ∧ (blob.drop 8).take 4 = asciiWAVE
      ∧ (blob.drop 12).take 4 = asciiFmt
      ∧ read32 blob 16 = 16
      ∧ read16 blob 20 = 1
      ∧ read16 blob 22 = s.numChannels
      ∧ read32 blob 24 = s.sampleRate
      ∧ read32 blob 28 = s.sampleRate * s.numChannels * 2
      ∧ read16 blob 32 = s.numChannels * 2
      ∧ read16 blob 34 = 16
      ∧ (blob.drop 36).take 4 = asciiData
      ∧ read32 blob 40 = WavAudioEncoder.totalFrames s.buffers * s.numChannels * 2
      ∧ blob.drop 44 = s.buffers.flatMap (WavAudioEncoder.frameDataBytes s.numChannels) := by
  have hw := writeFrames_ok s.numChannels s.buffers hgood
  have hfin : WavAudioEncoder.finish s
      = .ok (WavAudioEncoder.header
          (44 + WavAudioEncoder.totalFrames s.buffers * s.numChannels * 2)
          (WavAudioEncoder.totalFrames s.buffers * s.numChannels * 2)
          s.sampleRate s.numChannels
        ++ s.buffers.flatMap (WavAudioEncoder.frameDataBytes s.numChannels)) := by
    unfold WavAudioEncoder.finish
    rw [if_neg (by simp [List.length_eq_zero, hne]), if_neg (by omega), hw]
  refine ⟨_, hfin, ?_,
    header_take_riff _ _ _ _ _,
    header_field_4 _ _ _ _ _ (by omega),
    header_take_wave _ _ _ _ _,
    header_take_fmt _ _ _ _ _,
    header_field_16 _ _ _ _ _,
    header_field_20 _ _ _ _ _,
    header_field_22 _ _ _ _ _ (by omega),
    header_field_24 _ _ _ _ _ hsr,
    header_field_28 _ _ _ _ _ hbr,
    header_field_32 _ _ _ _ _ hnc,
    header_field_34 _ _ _ _ _,
    header_take_data _ _ _ _ _,
    header_field_40 _ _ _ _ _ (by omega),
    header_drop_44 _ _ _ _ _⟩
  rw [List.length_append, flatMap_frameDataBytes_length, header_length]
  ring

/-- C1 witness: three consecutive 2-channel frames of 128 samples each
at 44100 Hz produce a blob of exactly 1580 bytes. -/
theorem wav_finish_serialization_witness :
    ∃ blob, WavAudioEncoder.finish
        ⟨44100, 2, List.replicate 3 (List.replicate 2 (List.replicate 128 (0:ℚ)))⟩
      = .ok blob ∧ blob.length = 1580 := by
  obtain ⟨blob, h1, h2, -⟩ := wav_finish_serialization
    ⟨44100, 2, List.replicate 3 (List.replicate 2 (List.replicate 128 (0:ℚ)))⟩
    (by decide) (by decide) (by decide) (by decide) (by decide) (by decide) (by decide)
  exact ⟨blob, h1, by rw [h2]; decide⟩

/-- C1 counterexample: one accepted 2-channel frame whose channels are
both empty (hence of equal length) gives a non-empty accumulation, yet
`finish` throws instead of returning the 44-byte blob the claim
demands. -/
theorem wav_finish_serialization_cex :
    WavAudioEncoder.finish ⟨44100, 2, [[[], []]]⟩
      = .error "No valid audio data to encode" := rfl

/-! ## C2: channel adaptation -/

lemma getD_mem {α : Type} (l : List α) (d : α) (i : ℕ) (h : i < l.length) :
    l.getD i d ∈ l := by
  rw [List.getD_eq_getElem l d h]
  exact List.getElem_mem h

lemma getLastD_mem {α : Type} (l : List α) (d : α) (h : l ≠ []) :
    l.getLast?.getD d ∈ l := by
  rw [List.getLast?_eq_getLast l h]
  exact List.getLast_mem h

lemma take_one_eq_getD {α : Type} (l : List α) (d : α) (h : 1 ≤ l.length) :
    l.take 1 = [l.getD 0 d] := by
  cases l with
  | nil => simp at h
  | cons a t => rfl

lemma ogg_adapt_length (m : ℕ) (bufs : List JsChan) :
    (OggVorbisEncoderWrapper.adaptChannels m bufs).length = m := by
  unfold OggVorbisEncoderWrapper.adaptChannels
  split_ifs with h1 h2 h3
  · simp [← h1]
  · simp [h2.2]
  · simp [h3.2]
  · simp

lemma mp3_adapt_length (m : ℕ) (bufs : List JsChan) (hn : 1 ≤ bufs.length) :
    (Mp3LameEncoderWrapper.adaptChannels m bufs).length = m := by
  unfold Mp3LameEncoderWrapper.adaptChannels
  split_ifs with h1 h2 h3 h4 h5 h6
  · omega
  · simp [h2.2]
  · simp [h3.2]
  · omega
  · simp [List.length_replicate]
    omega
  · simp
    omega
  · omega

lemma ogg_encode_delivered (s : OggState) (bufs : List JsChan) (s2 : OggState)
    (d : List (List ℚ))
    (h : OggVorbisEncoderWrapper.encode s bufs = .ok (s2, some d)) :
    d = (OggVorbisEncoderWrapper.adaptChannels s.numChannels bufs).map
      fun ch => ch.map OggVorbisEncoderWrapper.sanitizeSample := by
  unfold OggVorbisEncoderWrapper.encode at h
  by_cases h1 : s.encoderLive = false
  · rw [if_pos h1] at h
    exact absurd h (by simp)
  · rw [if_neg h1] at h
    by_cases h2 : bufs.length = 0
    · rw [if_pos h2] at h
      simp at h
    · rw [if_neg h2] at h
      simp only [Except.ok.injEq, Prod.mk.injEq, Option.some.injEq] at h
      exact h.2.symm

lemma mp3_encode_delivered (t : Mp3State) (bufs : List JsChan) (t2 : Mp3State)
    (d : List (List ℚ))
    (h : Mp3LameEncoderWrapper.encode t bufs = .ok (t2, some d)) :
    d = (Mp3LameEncoderWrapper.adaptChannels t.numChannels bufs).map
      fun ch => ch.map Mp3LameEncoderWrapper.sanitizeSample := by
  unfold Mp3LameEncoderWrapper.encode at h
  by_cases h1 : t.encoderLive = false
  · rw [if_pos h1] at h
    exact absurd h (by simp)
  · rw [if_neg h1] at h
    by_cases h2 : (Mp3LameEncoderWrapper.adaptChannels t.numChannels bufs).length
        = t.numChannels
    · rw [if_neg (by simp [h2])] at h
      by_cases h3 : 0 < (Mp3LameEncoderWrapper.adaptChannels t.numChannels bufs).length
      · rw [if_pos h3] at h
        by_cases h4 : ((Mp3LameEncoderWrapper.adaptChannels t.numChannels bufs).all
            fun ch => ch.length
              == ((Mp3LameEncoderWrapper.adaptChannels t.numChannels bufs).getD 0 []).length)
            = false
        · rw [if_pos h4] at h
          exact absurd h (by simp)
        · rw [if_neg h4] at h
          by_cases h5 : ((Mp3LameEncoderWrapper.adaptChannels t.numChannels bufs).getD
              0 []).length = 0
          · rw [if_pos h5] at h
            simp at h
          · rw [if_neg h5] at h
            simp only [Except.ok.injEq, Prod.mk.injEq, Option.some.injEq] at h
            exact h.2.symm
      · rw [if_neg h3] at h
        simp at h
    · rw [if_pos h2] at h
      exact absurd h (by simp)

/-- C2 (amended with: the per-channel length guarantee holds provided
the input channels all have equal length; for a ragged frame the OGG
wrapper delivers the adapted channels with their original unequal
lengths, while the MP3 wrapper's encode detects the post-adaptation
mismatch and throws instead of delivering): for every frame with
`n ≥ 1` channels and every target `m`, both wrappers' channel adaptation
returns exactly `m` channels and follows the claimed policy —
pass-through when `n = m`, duplication of the single channel when
`n = 1, m = 2`, the first channel only when `n ≥ 2, m = 1`, truncation
to the first `m` channels when `n > m` — unconditionally; when the
input channels all have the first channel's length, every adapted
channel has that length; OGG delivery preserves every adapted channel's
length, and MP3 throws when the adapted channels' lengths differ. -/
theorem channel_adaptation (m : ℕ) (bufs : List JsChan)
    (hn : 1 ≤ bufs.length) :
    (OggVorbisEncoderWrapper.adaptChannels m bufs).length = m
    ∧ (Mp3LameEncoderWrapper.adaptChannels m bufs).length = m
    ∧ (bufs.length = m →
        OggVorbisEncoderWrapper.adaptChannels m bufs = bufs
        ∧ Mp3LameEncoderWrapper.adaptChannels m bufs = bufs)
    ∧ (bufs.length = 1 → m = 2 →
        OggVorbisEncoderWrapper.adaptChannels m bufs = [bufs.getD 0 [], bufs.getD 0 []]
        ∧ Mp3LameEncoderWrapper.adaptChannels m bufs = [bufs.getD 0 [], bufs.getD 0 []])
    ∧ (2 ≤ bufs.length → m = 1 →
        OggVorbisEncoderWrapper.adaptChannels m bufs = [bufs.getD 0 []]
        ∧ Mp3LameEncoderWrapper.adaptChannels m bufs = [bufs.getD 0 []])
    ∧ (m < bufs.length →
        OggVorbisEncoderWrapper.adaptChannels m bufs = bufs.take m
        ∧ Mp3LameEncoderWrapper.adaptChannels m bufs = bufs.take m)
    ∧ ((∀ c ∈ bufs, c.length = (bufs.getD 0 []).length) →
        (∀ c ∈ OggVorbisEncoderWrapper.adaptChannels m bufs,
          c.length = (bufs.getD 0 []).length)
        ∧ (∀ c ∈ Mp3LameEncoderWrapper.adaptChannels m bufs,
          c.length = (bufs.getD 0 []).length))
    ∧ (∀ (s s2 : OggState) (d : List (List ℚ)), s.numChannels = m →
        OggVorbisEncoderWrapper.encode s bufs = .ok (s2, some d) →
        d.map List.length
          = (OggVorbisEncoderWrapper.adaptChannels m bufs).map List.length)
    ∧ (∀ t : Mp3State, t.encoderLive = true → t.numChannels = m →
        (¬ ∀ c ∈ Mp3LameEncoderWrapper.adaptChannels m bufs,
            c.length = ((Mp3LameEncoderWrapper.adaptChannels m bufs).getD 0 []).length) →
        Mp3LameEncoderWrapper.encode t bufs
          = .error "Channel has mismatched length") := by
  refine ⟨ogg_adapt_length m bufs, mp3_adapt_length m bufs hn,
    ?_, ?_, ?_, ?_, ?_, ?_, ?_⟩
  · intro h
    constructor
    · unfold OggVorbisEncoderWrapper.adaptChannels
      rw [if_pos h]
      subst h
      exact range_map_getD bufs []
    · unfold Mp3LameEncoderWrapper.adaptChannels
      rw [if_pos h]
  · intro h1 h2
    constructor
    · unfold OggVorbisEncoderWrapper.adaptChannels
      rw [if_neg (by omega), if_pos ⟨h1, h2⟩]
    · unfold Mp3LameEncoderWrapper.adaptChannels
      rw [if_neg (by omega), if_pos ⟨h1, h2⟩]
  · intro h1 h2
    constructor
    · unfold OggVorbisEncoderWrapper.adaptChannels
      rw [if_neg (by omega), if_neg (by omega), if_pos ⟨h1, h2⟩]
    · unfold Mp3LameEncoderWrapper.adaptChannels
      by_cases hb2 : bufs.length = 2
      · rw [if_neg (by omega), if_neg (by omega), if_pos ⟨hb2, h2⟩]
      · rw [if_neg (by omega), if_neg (by omega), if_neg (by simp [hb2]),
          if_neg (by omega), if_pos (by omega), h2, take_one_eq_getD bufs [] hn]
  · intro h
    constructor
    · unfold OggVorbisEncoderWrapper.adaptChannels
      by_cases hm1 : m = 1
      · rw [if_neg (by omega), if_neg (by omega), if_pos ⟨by omega, hm1⟩, hm1,
          take_one_eq_getD bufs [] hn]
      · rw [if_neg (by omega), if_neg (by omega), if_neg (by simp [hm1]),
          show ((List.range m).map fun i =>
              if i < bufs.length then bufs.getD i []
              else bufs.getD (bufs.length - 1) [])
            = (List.range m).map fun i => bufs.getD i [] from
            List.map_congr_left fun i hi => by
              rw [List.mem_range] at hi
              rw [if_pos (by omega)],
          range_map_getD_take bufs [] m (by omega)]
    · unfold Mp3LameEncoderWrapper.adaptChannels
      by_cases hb : bufs.length = 2 ∧ m = 1
      · rw [if_neg (by omega), if_neg (by omega), if_pos hb, hb.2,
          take_one_eq_getD bufs [] hn]
      · rw [if_neg (by omega), if_neg (by omega), if_neg hb, if_neg (by omega),
          if_pos h]
  · intro heq
    constructor
    · intro c hc
      unfold OggVorbisEncoderWrapper.adaptChannels at hc
      split_ifs at hc with h1 h2 h3
      · obtain ⟨i, hi, rfl⟩ := List.mem_map.mp hc
        rw [List.mem_range] at hi
        exact heq _ (getD_mem bufs [] i (by omega))
      · simp only [List.mem_cons, List.not_mem_nil, or_false] at hc
        rcases hc with rfl | rfl <;> exact heq _ (getD_mem bufs [] 0 (by omega))
      · simp only [List.mem_cons, List.not_mem_nil, or_false] at hc
        rcases hc with rfl
        exact heq _ (getD_mem bufs [] 0 (by omega))
      · obtain ⟨i, hi, rfl⟩ := List.mem_map.mp hc
        by_cases hib : i < bufs.length
        · rw [if_pos hib]
          exact heq _ (getD_mem bufs [] i hib)
        · rw [if_neg hib]
          exact heq _ (getD_mem bufs [] (bufs.length - 1) (by omega))
    · intro c hc
      unfold Mp3LameEncoderWrapper.adaptChannels at hc
      split_ifs at hc with h1 h2 h3 h4 h5 h6
      · exact heq _ hc
      · simp only [List.mem_cons, List.not_mem_nil, or_false] at hc
        rcases hc with rfl | rfl <;> exact heq _ (getD_mem bufs [] 0 (by omega))
      · simp only [List.mem_cons, List.not_mem_nil, or_false] at hc
        rcases hc with rfl
        exact heq _ (getD_mem bufs [] 0 (by omega))
      · exact heq _ hc
      · rcases List.mem_append.mp hc with hmem | hmem
        · exact heq _ hmem
        · rw [(List.mem_replicate.mp hmem).2]
          exact heq _ (getLastD_mem bufs [] (by simpa [← List.length_pos] using hn))
      · exact heq _ (List.mem_of_mem_take hc)
      · exact heq _ hc
  · intro s s2 d hm he
    subst hm
    rw [ogg_encode_delivered s bufs s2 d he]
    simp [List.map_map, Function.comp]
  · intro t ht hm hragged
    subst hm
    have hm1 : 0 < (Mp3LameEncoderWrapper.adaptChannels t.numChannels bufs).length := by
      rcases Nat.eq_zero_or_pos
        (Mp3LameEncoderWrapper.adaptChannels t.numChannels bufs).length with h0 | h0
      · exfalso
        apply hragged
        intro c hc
        rw [List.length_eq_zero.mp h0] at hc
        simp at hc
      · exact h0
    have hall : ((Mp3LameEncoderWrapper.adaptChannels t.numChannels bufs).all fun c =>
        c.length
          == ((Mp3LameEncoderWrapper.adaptChannels t.numChannels bufs).getD 0 []).length)
        = false := by
      rw [Bool.eq_false_iff]
      intro hcon
      rw [List.all_eq_true] at hcon
      apply hragged
      intro c hc
      simpa using hcon c hc
    unfold Mp3LameEncoderWrapper.encode
    rw [if_neg (by simp [ht]),
      if_neg (by simp [mp3_adapt_length t.numChannels bufs hn]),
      if_pos hm1, if_pos hall]

/-- C2 witness: a mono frame delivered to a stereo-configured wrapper is
duplicated into exactly two channels by both wrappers. -/
theorem channel_adaptation_witness :
    OggVorbisEncoderWrapper.adaptChannels 2 [[JsNum.finite 0]]
      = [[JsNum.finite 0], [JsNum.finite 0]]
    ∧ Mp3LameEncoderWrapper.adaptChannels 2 [[JsNum.finite 0]]
      = [[JsNum.finite 0], [JsNum.finite 0]] := by
  obtain ⟨-, -, -, h4, -, -, -, -, -⟩ :=
    channel_adaptation 2 [[JsNum.finite 0]] (by decide)
  obtain ⟨ha, hb⟩ := h4 rfl rfl
  exact ⟨by rw [ha]; rfl, by rw [hb]; rfl⟩

/-- C2 counterexample: a ragged 2-channel frame (channel lengths 1 and
2) is passed through unchanged by the OGG wrapper, so the second
delivered channel does not have the first input channel's length, which
falsifies the claim's universally quantified length guarantee. -/
theorem channel_adaptation_cex :
    OggVorbisEncoderWrapper.encode ⟨44100, 2, mkRat 1 2, true, 0, 0⟩
        [[JsNum.finite 0], [JsNum.finite 0, JsNum.finite 0]]
      = .ok (⟨44100, 2, mkRat 1 2, true, 1, 1⟩, some [[(0:ℚ)], [0, 0]])
    ∧ ([[(0:ℚ)], [0, 0]].getD 1 []).length
      ≠ ([[JsNum.finite 0], [JsNum.finite 0, JsNum.finite 0]].getD 0 []).length :=
  ⟨rfl, by decide⟩

/-! ## C3: minimum-duration padding -/

lemma ratCeil_eq (q : ℚ) : ratCeil q = ⌈q⌉ := by
  have h1 : (⌈q⌉ : ℤ) = -⌊-q⌋ := by rw [Int.floor_neg]; ring
  rw [ratCeil, h1]
  congr 1
  rw [Rat.floor_def, Rat.neg_num, Rat.neg_den]
  exact Int.fdiv_eq_ediv _ (Int.natCast_nonneg q.den)

lemma minSamples_eq (sr : ℕ) :
    OggVorbisEncoderWrapper.minSamples sr = (sr : ℚ) / 2 := by
  rw [OggVorbisEncoderWrapper.minSamples, Rat.mkRat_eq_div]
  norm_num

lemma missingSamples_eq (sr ts : ℕ) :
    OggVorbisEncoderWrapper.missingSamples sr ts
      = ⌈OggVorbisEncoderWrapper.minSamples sr - (ts : ℚ)⌉ := by
  rw [OggVorbisEncoderWrapper.missingSamples, ratCeil_eq, minSamples_eq, Rat.mkRat_eq_div]
  congr 1
  push_cast
  ring

lemma ogg_finish_pads (s : OggState)
    (hlive : s.encoderLive = true)
    (hsr : 1 ≤ s.sampleRate)
    (hmin : (s.totalSamples : ℚ) < OggVorbisEncoderWrapper.minSamples s.sampleRate) :
    OggVorbisEncoderWrapper.finish s
      = .finalized (OggVorbisEncoderWrapper.missingSamples s.sampleRate s.totalSamples).toNat := by
  have hme := missingSamples_eq s.sampleRate s.totalSamples
  have hmin2 := hmin
  rw [minSamples_eq] at hmin2
  have hpos : 0 < OggVorbisEncoderWrapper.missingSamples s.sampleRate s.totalSamples := by
    rw [hme, minSamples_eq]
    exact Int.ceil_pos.mpr (by linarith)
  have hlt : OggVorbisEncoderWrapper.missingSamples s.sampleRate s.totalSamples
      < (s.sampleRate : ℤ) * 10 := by
    rw [hme]
    have h0 : (0:ℚ) ≤ (s.totalSamples : ℚ) := by positivity
    have h0sr : (0:ℚ) ≤ (s.sampleRate : ℚ) := by positivity
    have h1 : OggVorbisEncoderWrapper.minSamples s.sampleRate - (s.totalSamples : ℚ)
        ≤ (s.sampleRate : ℚ) := by
      rw [minSamples_eq]
      linarith
    have h2 : ⌈OggVorbisEncoderWrapper.minSamples s.sampleRate - (s.totalSamples : ℚ)⌉
        ≤ (s.sampleRate : ℤ) := by
      calc ⌈OggVorbisEncoderWrapper.minSamples s.sampleRate - (s.totalSamples : ℚ)⌉
          ≤ ⌈(s.sampleRate : ℚ)⌉ := Int.ceil_le_ceil h1
        _ = (s.sampleRate : ℤ) := Int.ceil_natCast _
    have h3 : (1:ℤ) ≤ (s.sampleRate : ℤ) := by exact_mod_cast hsr
    nlinarith
  unfold OggVorbisEncoderWrapper.finish
  rw [if_neg (by simp [hlive]), if_pos hmin, if_pos ⟨hpos, hlt⟩]

lemma mp3_finish_direct (t : Mp3State) (htlive : t.encoderLive = true) :
    Mp3LameEncoderWrapper.finish t = .finalized 0 := by
  unfold Mp3LameEncoderWrapper.finish
  rw [if_neg (by simp [htlive])]

/-- C3 (amended with: only the OGG wrapper pads — the MP3 wrapper's
`finish` performs no silence padding at all — and the `InsufficientData`
refusal is dropped because the shortfall `ceil(sampleRate*0.5 -
totalSamples)` is always below ten seconds worth of samples, so no
refusal path exists in the code): when `finish` runs on a live OGG
wrapper with `totalSamples < sampleRate*0.5`, it encodes exactly
`ceil(sampleRate*0.5 - totalSamples)` zero-valued samples per channel
before the external finalize, and does not fail with `NoData`. -/
theorem opaque_finish_padding (s : OggState) (t : Mp3State)
    (hlive : s.encoderLive = true)
    (hsr : 1 ≤ s.sampleRate)
    (hmin : (s.totalSamples : ℚ) < OggVorbisEncoderWrapper.minSamples s.sampleRate)
    (htlive : t.encoderLive = true) :
    OggVorbisEncoderWrapper.finish s
      = .finalized (OggVorbisEncoderWrapper.missingSamples s.sampleRate s.totalSamples).toNat
    ∧ OggVorbisEncoderWrapper.missingSamples s.sampleRate s.totalSamples
      = ⌈OggVorbisEncoderWrapper.minSamples s.sampleRate - (s.totalSamples : ℚ)⌉
    ∧ OggVorbisEncoderWrapper.finish s ≠ .noData
    ∧ Mp3LameEncoderWrapper.finish t = .finalized 0 := by
  have hfin := ogg_finish_pads s hlive hsr hmin
  exact ⟨hfin, missingSamples_eq s.sampleRate s.totalSamples,
    by rw [hfin]; simp, mp3_finish_direct t htlive⟩

theorem opaque_finish_padding_witness :
    OggVorbisEncoderWrapper.finish ⟨48000, 2, mkRat 1 2, true, 1, 4096⟩ = .finalized 19904
    ∧ 4096 + 19904 = 24000
    ∧ Mp3LameEncoderWrapper.finish ⟨48000, 2, 128, true, 1, 4096⟩ = .finalized 0 := by
  obtain ⟨h1, -, -, h4⟩ := opaque_finish_padding ⟨48000, 2, mkRat 1 2, true, 1, 4096⟩
    ⟨48000, 2, 128, true, 1, 4096⟩ rfl (by decide) (by decide) rfl
  refine ⟨?_, by decide, h4⟩
  rw [h1]
  rfl

/-- C3 counterexample: the MP3 wrapper is an opaque-codec wrapper, yet
after 4096 samples at 48000 Hz its `finish` pads zero samples of
silence, not the `ceil(24000 - 4096) = 19904` the claim requires. -/
theorem opaque_finish_padding_cex :
    Mp3LameEncoderWrapper.finish ⟨48000, 2, 128, true, 1, 4096⟩ = .finalized 0
    ∧ (OggVorbisEncoderWrapper.missingSamples 48000 4096).toNat = 19904
    ∧ (0 : ℕ) ≠ 19904 := ⟨rfl, rfl, by decide⟩

/-! ## C4: finish with no encoded data -/

/-- C4 (amended with: only the WAV encoder fails with `NoData` on an
empty accumulation; with zero buffers — hence zero total samples — the
OGG wrapper instead pads `ceil(sampleRate*0.5)` zero samples and
finalizes, and the MP3 wrapper warns and finalizes without error). -/
theorem finish_with_no_data (sr nc : ℕ) (s : OggState) (t : Mp3State)
    (hlive : s.encoderLive = true) (hsr : 1 ≤ s.sampleRate)
    (hts : s.totalSamples = 0)
    (htlive : t.encoderLive = true) :
    WavAudioEncoder.finish ⟨sr, nc, []⟩ = .error "No audio data to encode"
    ∧ OggVorbisEncoderWrapper.finish s
      = .finalized (OggVorbisEncoderWrapper.missingSamples s.sampleRate 0).toNat
    ∧ OggVorbisEncoderWrapper.finish s ≠ .noData
    ∧ Mp3LameEncoderWrapper.finish t = .finalized 0 := by
  have hmin : (s.totalSamples : ℚ) < OggVorbisEncoderWrapper.minSamples s.sampleRate := by
    rw [hts, minSamples_eq]
    have h1 : (1:ℚ) ≤ (s.sampleRate : ℚ) := by exact_mod_cast hsr
    push_cast
    linarith
  have hfin := ogg_finish_pads s hlive hsr hmin
  rw [hts] at hfin
  exact ⟨rfl, hfin, by rw [hfin]; simp, mp3_finish_direct t htlive⟩

/-- C4 witness: with zero encoded buffers the WAV encoder throws its
no-data error, while the OGG wrapper at 48000 Hz pads 24000 silence
samples and finalizes and the MP3 wrapper finalizes directly. -/
theorem finish_with_no_data_witness :
    WavAudioEncoder.finish ⟨44100, 2, []⟩ = .error "No audio data to encode"
    ∧ OggVorbisEncoderWrapper.finish ⟨48000, 2, mkRat 1 2, true, 0, 0⟩ = .finalized 24000
    ∧ Mp3LameEncoderWrapper.finish ⟨48000, 2, 128, true, 0, 0⟩ = .finalized 0 := by
  obtain ⟨h1, h2, -, h4⟩ := finish_with_no_data 44100 2
    ⟨48000, 2, mkRat 1 2, true, 0, 0⟩ ⟨48000, 2, 128, true, 0, 0⟩ rfl (by decide) rfl rfl
  exact ⟨h1, by rw [h2]; rfl, h4⟩

/-- C4 counterexample: the OGG wrapper with `bufferCount = 0` does not
fail with `NoData` — it pads 24000 silence samples and finalizes. -/
theorem finish_with_no_data_cex :
    OggVorbisEncoderWrapper.finish ⟨48000, 2, mkRat 1 2, true, 0, 0⟩ = .finalized 24000
    ∧ OggFinishOutcome.finalized 24000 ≠ OggFinishOutcome.noData := ⟨rfl, by decide⟩

/-! ## C5: encode after cancel / finish -/

/-- C5 (amended with: after `cancel()` the encode guard fires only on
the OGG and MP3 wrappers, whose cancel nulls the encoder — the failed
call mutates nothing; the WAV encoder has no initialization guard, so
its encode after `cancel()` succeeds and starts a fresh accumulation;
and a successful `finish()` invalidates no wrapper — OGG and MP3
`finish` assign no field — so encode afterwards is not rejected.) -/
theorem encode_after_cancel (w : WavState) (s : OggState) (t : Mp3State)
    (frame : Frame) (bufs : List JsChan)
    (hf : frame.length = w.numChannels) (hb : 1 ≤ bufs.length) :
    WavAudioEncoder.encode (WavAudioEncoder.cancel w) frame
      = .ok { w with buffers := [frame] }
    ∧ OggVorbisEncoderWrapper.encode (OggVorbisEncoderWrapper.cancel s) bufs
      = .error "Encoder is not initialized"
    ∧ Mp3LameEncoderWrapper.encode (Mp3LameEncoderWrapper.cancel t) bufs
      = .error "Encoder is not initialized"
    ∧ (s.encoderLive = true →
        ∃ s2 d, OggVorbisEncoderWrapper.encode s bufs = .ok (s2, some d)) := by
  refine ⟨?_, ?_, ?_, ?_⟩
  · unfold WavAudioEncoder.encode WavAudioEncoder.cancel
    rw [if_neg (by simp [hf])]
    rfl
  · unfold OggVorbisEncoderWrapper.encode OggVorbisEncoderWrapper.cancel
    rw [if_pos rfl]
  · unfold Mp3LameEncoderWrapper.encode Mp3LameEncoderWrapper.cancel
    rw [if_pos rfl]
  · intro hlive
    unfold OggVorbisEncoderWrapper.encode
    rw [if_neg (by simp [hlive]), if_neg (by omega)]
    exact ⟨_, _, rfl⟩

/-- C5 witness: after `cancel()` the WAV encoder accepts a frame into a
fresh accumulation while both opaque wrappers reject with the
not-initialized error. -/
theorem encode_after_cancel_witness :
    WavAudioEncoder.encode (WavAudioEncoder.cancel ⟨44100, 1, [[[1]]]⟩) [[0]]
      = .ok ⟨44100, 1, [[[0]]]⟩
    ∧ OggVorbisEncoderWrapper.encode
        (OggVorbisEncoderWrapper.cancel ⟨44100, 2, mkRat 1 2, true, 3, 300⟩)
        [[JsNum.finite 0]]
      = .error "Encoder is not initialized"
    ∧ Mp3LameEncoderWrapper.encode
        (Mp3LameEncoderWrapper.cancel ⟨44100, 2, 128, true, 3, 300⟩)
        [[JsNum.finite 0]]
      = .error "Encoder is not initialized" := by
  obtain ⟨h1, h2, h3, -⟩ := encode_after_cancel ⟨44100, 1, [[[1]]]⟩
    ⟨44100, 2, mkRat 1 2, true, 3, 300⟩ ⟨44100, 2, 128, true, 3, 300⟩
    [[0]] [[JsNum.finite 0]] rfl (by decide)
  exact ⟨h1, h2, h3⟩

/-- C5 counterexample: the WAV encoder's encode right after `cancel()`
does not fail with any not-initialized error — it succeeds and appends
the frame to the (cleared) accumulation. -/
theorem encode_after_cancel_cex :
    WavAudioEncoder.encode (WavAudioEncoder.cancel ⟨44100, 1, [[[1]]]⟩) [[0]]
      = .ok ⟨44100, 1, [[[0]]]⟩ := rfl

/-! ## C6: sample sanitization -/

lemma ogg_sanitize_bounds (v : JsNum) :
    -OGG_SAFE_MAX ≤ OggVorbisEncoderWrapper.sanitizeSample v
    ∧ OggVorbisEncoderWrapper.sanitizeSample v ≤ OGG_SAFE_MAX := by
  cases v with
  | finite q =>
    simp only [OggVorbisEncoderWrapper.sanitizeSample]
    split_ifs with h1 h2
    · constructor
      · decide
      · exact le_refl _
    · constructor
      · exact le_refl _
      · decide
    · constructor <;> linarith
  | nan => constructor <;> decide
  | posInf => constructor <;> decide
  | negInf => constructor <;> decide

lemma mp3_sanitize_bounds (v : JsNum) :
    -1 ≤ Mp3LameEncoderWrapper.sanitizeSample v
    ∧ Mp3LameEncoderWrapper.sanitizeSample v ≤ 1 := by
  cases v with
  | finite q =>
    simp only [Mp3LameEncoderWrapper.sanitizeSample]
    split_ifs with h1 h2
    · constructor
      · exact le_refl _
      · decide
    · constructor
      · decide
      · exact le_refl _
    · constructor <;> linarith
  | nan => constructor <;> decide
  | posInf => constructor <;> decide
  | negInf => constructor <;> decide

/-- C6 (amended with: only the OGG wrapper clamps into the tighter
symmetric range ±0.9999; the MP3 wrapper clamps into the full closed
range [-1.0, 1.0], including the boundary values, so its delivered
values are not strictly inside [-1, 1]): every non-finite sample becomes
0.0 on both paths, and every value delivered to either external codec
lies in the respective clamp range — in particular `NaN` never reaches
an underlying encoder. -/
theorem sample_sanitization (v : JsNum) (s : OggState) (t : Mp3State)
    (bufs : List JsChan) :
    (v.isFinite = false →
      OggVorbisEncoderWrapper.sanitizeSample v = 0
      ∧ Mp3LameEncoderWrapper.sanitizeSample v = 0)
    ∧ (-OGG_SAFE_MAX ≤ OggVorbisEncoderWrapper.sanitizeSample v
        ∧ OggVorbisEncoderWrapper.sanitizeSample v ≤ OGG_SAFE_MAX)
    ∧ (-1 ≤ Mp3LameEncoderWrapper.sanitizeSample v
        ∧ Mp3LameEncoderWrapper.sanitizeSample v ≤ 1)
    ∧ (∀ s2 d, OggVorbisEncoderWrapper.encode s bufs = .ok (s2, some d) →
        ∀ c ∈ d, ∀ x ∈ c, -OGG_SAFE_MAX ≤ x ∧ x ≤ OGG_SAFE_MAX)
    ∧ (∀ t2 d, Mp3LameEncoderWrapper.encode t bufs = .ok (t2, some d) →
        ∀ c ∈ d, ∀ x ∈ c, -1 ≤ x ∧ x ≤ 1) := by
  refine ⟨?_, ogg_sanitize_bounds v, mp3_sanitize_bounds v, ?_, ?_⟩
  · intro hnf
    cases v with
    | finite q => simp [JsNum.isFinite] at hnf
    | nan => exact ⟨rfl, rfl⟩
    | posInf => exact ⟨rfl, rfl⟩
    | negInf => exact ⟨rfl, rfl⟩
  · intro s2 d henc c hc x hx
    have hd := ogg_encode_delivered s bufs s2 d henc
    subst hd
    obtain ⟨c0, -, rfl⟩ := List.mem_map.mp hc
    obtain ⟨y, -, rfl⟩ := List.mem_map.mp hx
    exact ogg_sanitize_bounds y
  · intro t2 d henc c hc x hx
    have hd := mp3_encode_delivered t bufs t2 d henc
    subst hd
    obtain ⟨c0, -, rfl⟩ := List.mem_map.mp hc
    obtain ⟨y, -, rfl⟩ := List.mem_map.mp hx
    exact mp3_sanitize_bounds y

/-- C6 witness: a `NaN` sample is sanitized to 0.0 on both opaque-codec
paths, and an out-of-range finite sample stays inside the OGG clamp
range. -/
theorem sample_sanitization_witness :
    OggVorbisEncoderWrapper.sanitizeSample .nan = 0
    ∧ Mp3LameEncoderWrapper.sanitizeSample .nan = 0
    ∧ (-OGG_SAFE_MAX ≤ OggVorbisEncoderWrapper.sanitizeSample (.finite 2)
        ∧ OggVorbisEncoderWrapper.sanitizeSample (.finite 2) ≤ OGG_SAFE_MAX) := by
  obtain ⟨h1, -, -, -, -⟩ := sample_sanitization .nan
    ⟨44100, 2, mkRat 1 2, true, 0, 0⟩ ⟨44100, 2, 128, true, 0, 0⟩ []
  obtain ⟨-, h2, -, -, -⟩ := sample_sanitization (.finite 2)
    ⟨44100, 2, mkRat 1 2, true, 0, 0⟩ ⟨44100, 2, 128, true, 0, 0⟩ []
  obtain ⟨ha, hb⟩ := h1 rfl
  exact ⟨ha, hb, h2⟩

/-- C6 counterexample: the MP3 wrapper delivers the boundary sample 1.0
to the external codec unchanged, so the delivered value is not inside a
range strictly inside [-1, 1]. -/
theorem sample_sanitization_cex :
    Mp3LameEncoderWrapper.encode ⟨44100, 1, 128, true, 0, 0⟩ [[JsNum.finite 1]]
      = .ok (⟨44100, 1, 128, true, 1, 1⟩, some [[(1:ℚ)]])
    ∧ ¬ ((1:ℚ) < 1) := ⟨rfl, by decide⟩

/-! ## C7: channel-length validation of the WAV encoder -/

lemma totalFrames_pos_of_mem (bufs : List Frame) (f : Frame)
    (hmem : f ∈ bufs) (h : 0 < firstChanLen f) :
    0 < WavAudioEncoder.totalFrames bufs := by
  induction bufs with
  | nil => simp at hmem
  | cons g rest ih =>
    rcases List.mem_cons.mp hmem with rfl | hmem2
    · unfold WavAudioEncoder.totalFrames
      omega
    · have := ih hmem2
      unfold WavAudioEncoder.totalFrames
      omega

lemma writeFrames_error_of_bad (nc : ℕ) (bufs : List Frame) (f : Frame)
    (hmem : f ∈ bufs) (h0 : 0 < firstChanLen f)
    (hbad : WavAudioEncoder.frameChannelsOk nc f = false) :
    ∃ e, WavAudioEncoder.writeFrames nc bufs = .error e := by
  induction bufs with
  | nil => simp at hmem
  | cons g rest ih =>
    rcases List.mem_cons.mp hmem with rfl | hmem2
    · rw [WavAudioEncoder.writeFrames, if_neg (by omega), if_neg (by simp [hbad])]
      exact ⟨_, rfl⟩
    · obtain ⟨e, he⟩ := ih hmem2
      by_cases hg0 : firstChanLen g = 0
      · rw [WavAudioEncoder.writeFrames, if_pos hg0]
        exact ⟨e, he⟩
      · by_cases hgok : WavAudioEncoder.frameChannelsOk nc g = true
        · rw [WavAudioEncoder.writeFrames, if_neg hg0, if_pos hgok, he]
          exact ⟨e, rfl⟩
        · rw [WavAudioEncoder.writeFrames, if_neg hg0, if_neg (by simp [hgok])]
          exact ⟨_, rfl⟩

/-- C7 (amended with: `encode` validates only the channel count, so a
frame with unequal channel lengths is accepted and appended; the
equal-length validation happens inside `finish`, which throws when the
accumulation contains a frame — with a nonempty first channel — whose
channels have unequal lengths). -/
theorem wav_encode_length_validation (w : WavState) (frame f : Frame)
    (hf : frame.length = w.numChannels)
    (hmem : f ∈ w.buffers) (h0 : 0 < firstChanLen f)
    (hbad : WavAudioEncoder.frameChannelsOk w.numChannels f = false) :
    WavAudioEncoder.encode w frame = .ok { w with buffers := w.buffers ++ [frame] }
    ∧ ∃ e, WavAudioEncoder.finish w = .error e := by
  constructor
  · unfold WavAudioEncoder.encode
    rw [if_neg (by simp [hf])]
  · obtain ⟨e, he⟩ := writeFrames_error_of_bad w.numChannels w.buffers f hmem h0 hbad
    refine ⟨e, ?_⟩
    unfold WavAudioEncoder.finish
    rw [if_neg (by simp [List.length_eq_zero]; exact List.ne_nil_of_mem hmem),
      if_neg (by have := totalFrames_pos_of_mem w.buffers f hmem h0; omega), he]

/-- C7 witness: with a ragged frame already accumulated, a further
well-formed frame is still accepted by `encode`, and `finish` then
throws on the ragged frame. -/
theorem wav_encode_length_validation_witness :
    WavAudioEncoder.encode ⟨44100, 2, [[[0], [0, 0]]]⟩ [[1], [1]]
      = .ok ⟨44100, 2, [[[0], [0, 0]], [[1], [1]]]⟩
    ∧ ∃ e, WavAudioEncoder.finish ⟨44100, 2, [[[0], [0, 0]]]⟩ = .error e := by
  obtain ⟨h1, h2⟩ := wav_encode_length_validation ⟨44100, 2, [[[0], [0, 0]]]⟩
    [[1], [1]] [[0], [0, 0]] rfl (by decide) (by decide) (by decide)
  exact ⟨h1, h2⟩

/-- C7 counterexample: a 2-channel frame with channel lengths 1 and 2 is
accepted by `encode` and appended, refuting the claim that `encode`
fails on unequal channel lengths. -/
theorem wav_encode_length_validation_cex :
    WavAudioEncoder.encode ⟨44100, 2, []⟩ [[0], [0, 0]]
      = .ok ⟨44100, 2, [[[0], [0, 0]]]⟩ := rfl

/-! ## C8: frames dropped outside RECORDING -/

/-- C8 (confirmed): whenever the per-frame callback fires while the
recorder status is not RECORDING, the frame is silently dropped — the
bound encoder's encode is not invoked, no error is surfaced, and the
encoder state is returned unchanged. -/
theorem frame_dropped_when_not_recording {σ : Type} (st : RecorderStatus) (nc : ℕ)
    (encode : σ → Frame → Except String σ) (es : σ) (input : Frame)
    (h : st ≠ RecorderStatus.recording) :
    WebAudioRecorder.onAudioProcess st nc encode es input = (es, false, false) := by
  unfold WebAudioRecorder.onAudioProcess
  rw [if_pos h]

/-- C8 witness: a frame arriving while the recorder is PROCESSING (after
`stop()` has begun) leaves a counting encoder untouched. -/
theorem frame_dropped_when_not_recording_witness :
    WebAudioRecorder.onAudioProcess RecorderStatus.processing 2
      (fun (n : ℕ) (_ : Frame) => Except.ok (n + 1)) 0 [[0], [0]]
      = (0, false, false) :=
  frame_dropped_when_not_recording RecorderStatus.processing 2
    (fun (n : ℕ) (_ : Frame) => Except.ok (n + 1)) 0 [[0], [0]] (by decide)

/-! ## C9: start() state guards -/

/-- C9 (confirmed): `start()` fails with `AlreadyRecording` while the
state is RECORDING and with `StillProcessing` while it is PROCESSING;
both guard throws precede every assignment in the source, which the
model reflects by returning the error with no successor state, so the
recorder's status, encoder, stream and startTime are unchanged. -/
theorem start_state_guards (s : SessionState) (stream now : ℕ) :
    (s.status = RecorderStatus.recording →
      WebAudioRecorder.start s stream now = .error .alreadyRecording)
    ∧ (s.status = RecorderStatus.processing →
      WebAudioRecorder.start s stream now = .error .stillProcessing) := by
  constructor
  · intro h
    unfold WebAudioRecorder.start
    rw [if_pos h]
  · intro h
    unfold WebAudioRecorder.start
    rw [if_neg (by simp [h]), if_pos h]

/-- C9 witness: concrete RECORDING and PROCESSING recorders rejecting
`start()` with the respective errors. -/
theorem start_state_guards_witness :
    WebAudioRecorder.start ⟨RecorderStatus.recording, true, none, 0⟩ 5 100
      = .error .alreadyRecording
    ∧ WebAudioRecorder.start ⟨RecorderStatus.processing, true, none, 0⟩ 5 100
      = .error .stillProcessing :=
  ⟨(start_state_guards ⟨RecorderStatus.recording, true, none, 0⟩ 5 100).1 rfl,
   (start_state_guards ⟨RecorderStatus.processing, true, none, 0⟩ 5 100).2 rfl⟩

/-! ## C10: constructor validation of the wrappers -/

lemma rat_int_one_or_two (q : ℚ) (hden : q.den = 1) (h1 : 1 ≤ q) (h2 : q ≤ 2) :
    q = 1 ∨ q = 2 := by
  have hq : (q.num : ℚ) = q := Rat.den_eq_one_iff q |>.mp hden
  have hn1 : (1:ℤ) ≤ q.num := by
    rw [← hq] at h1
    exact_mod_cast h1
  have hn2 : q.num ≤ 2 := by
    rw [← hq] at h2
    exact_mod_cast h2
  interval_cases hn : q.num
  · left
    exact_mod_cast hq.symm
  · right
    exact_mod_cast hq.symm

lemma sr_guard_false (x : JsNum) (h1 : x.isFinite = true) (h2 : 0 < x.val) :
    ¬(x.isFinite = false ∨ x.leZero = true) := by
  cases x with
  | finite q =>
    simp only [JsNum.val] at h2
    intro hor
    rcases hor with h | h
    · exact absurd h (by simp [JsNum.isFinite])
    · simp only [JsNum.leZero] at h
      exact absurd (of_decide_eq_true h) (not_le.mpr h2)
  | nan => simp [JsNum.isFinite] at h1
  | posInf => simp [JsNum.isFinite] at h1
  | negInf => simp [JsNum.isFinite] at h1

lemma sr_guard_true (x : JsNum) (h : ¬(x.isFinite = true ∧ 0 < x.val)) :
    x.isFinite = false ∨ x.leZero = true := by
  cases x with
  | finite q =>
    right
    simp only [JsNum.isFinite, true_and] at h
    simp only [JsNum.val] at h
    simp only [JsNum.leZero, decide_eq_true_eq]
    exact not_lt.mp h
  | nan => exact Or.inl rfl
  | posInf => exact Or.inl rfl
  | negInf => exact Or.inl rfl

lemma nc_guard_false (x : JsNum) (hint : x.isInteger = true)
    (hv : x.val = 1 ∨ x.val = 2) :
    ¬(x.isInteger = false ∨ x.val < 1 ∨ 2 < x.val) := by
  intro hor
  rcases hor with h | h | h
  · rw [hint] at h
    exact absurd h (by simp)
  · rcases hv with h1 | h1 <;> rw [h1] at h <;> revert h <;> decide
  · rcases hv with h1 | h1 <;> rw [h1] at h <;> revert h <;> decide

lemma nc_guard_true (x : JsNum)
    (h : ¬(x.isInteger = true ∧ (x.val = 1 ∨ x.val = 2))) :
    x.isInteger = false ∨ x.val < 1 ∨ 2 < x.val := by
  by_cases hint : x.isInteger = true
  · right
    by_contra hcon
    push_neg at hcon
    obtain ⟨hc1, hc2⟩ := hcon
    cases x with
    | finite q =>
      have hden : q.den = 1 := by
        simpa [JsNum.isInteger] using hint
      simp only [JsNum.val] at hc1 hc2
      rcases rat_int_one_or_two q hden hc1 hc2 with h1 | h1
      · exact h ⟨hint, Or.inl (by simpa [JsNum.val] using h1)⟩
      · exact h ⟨hint, Or.inr (by simpa [JsNum.val] using h1)⟩
    | nan => simp [JsNum.isInteger] at hint
    | posInf => simp [JsNum.isInteger] at hint
    | negInf => simp [JsNum.isInteger] at hint
  · left
    simpa using hint

/-- C10 (confirmed): both wrapper constructors throw for every sample
rate that is not a finite positive number and for every channel count
that is not the integer 1 or 2; with valid rate and channels, a
non-finite OGG quality falls back to 0.5 and a finite quality is clamped
into [-0.1, 1.0] (kept as is when already in range), while a non-integer
MP3 bitrate falls back to 128 and an integer bitrate is clamped into
[32, 320] (kept as is when already in range) — neither is rejected. -/
theorem ctor_validation (sampleRate numChannels : JsNum)
    (quality bitrate : Option JsNum) :
    (¬(sampleRate.isFinite = true ∧ 0 < sampleRate.val) →
      OggVorbisEncoderWrapper.validateCtor sampleRate numChannels quality
        = .error .invalidSampleRate
      ∧ Mp3LameEncoderWrapper.validateCtor sampleRate numChannels bitrate
        = .error .invalidSampleRate)
    ∧ (sampleRate.isFinite = true → 0 < sampleRate.val →
       ¬(numChannels.isInteger = true ∧ (numChannels.val = 1 ∨ numChannels.val = 2)) →
      OggVorbisEncoderWrapper.validateCtor sampleRate numChannels quality
        = .error .invalidNumChannels
      ∧ Mp3LameEncoderWrapper.validateCtor sampleRate numChannels bitrate
        = .error .invalidNumChannels)
    ∧ (sampleRate.isFinite = true → 0 < sampleRate.val →
       numChannels.isInteger = true → (numChannels.val = 1 ∨ numChannels.val = 2) →
      (∀ j, quality = some j → j.isFinite = false →
        OggVorbisEncoderWrapper.validateCtor sampleRate numChannels quality
          = .ok (mkRat 1 2))
      ∧ (∀ qv : ℚ, quality = some (.finite qv) →
          ∃ q0, OggVorbisEncoderWrapper.validateCtor sampleRate numChannels quality
              = .ok q0
            ∧ mkRat (-1) 10 ≤ q0 ∧ q0 ≤ 1
            ∧ (mkRat (-1) 10 ≤ qv → qv ≤ 1 → q0 = qv))
      ∧ (∀ j, bitrate = some j → j.isInteger = false →
          Mp3LameEncoderWrapper.validateCtor sampleRate numChannels bitrate = .ok 128)
      ∧ (∀ bv : ℚ, bitrate = some (.finite bv) → bv.den = 1 →
          ∃ b0, Mp3LameEncoderWrapper.validateCtor sampleRate numChannels bitrate
              = .ok b0
            ∧ 32 ≤ b0 ∧ b0 ≤ 320
            ∧ (32 ≤ bv → bv ≤ 320 → b0 = bv))) := by
  refine ⟨?_, ?_, ?_⟩
  · intro h
    constructor
    · unfold OggVorbisEncoderWrapper.validateCtor
      rw [if_pos (sr_guard_true sampleRate h)]
    · unfold Mp3LameEncoderWrapper.validateCtor
      rw [if_pos (sr_guard_true sampleRate h)]
  · intro h1 h2 h3
    constructor
    · unfold OggVorbisEncoderWrapper.validateCtor
      rw [if_neg (sr_guard_false sampleRate h1 h2),
        if_pos (nc_guard_true numChannels h3)]
    · unfold Mp3LameEncoderWrapper.validateCtor
      rw [if_neg (sr_guard_false sampleRate h1 h2),
        if_pos (nc_guard_true numChannels h3)]
  · intro h1 h2 h3 h4
    refine ⟨?_, ?_, ?_, ?_⟩
    · intro j hj hjf
      unfold OggVorbisEncoderWrapper.validateCtor
      rw [if_neg (sr_guard_false sampleRate h1 h2),
        if_neg (nc_guard_false numChannels h3 h4), hj]
      simp only [Option.getD_some]
      rw [if_pos hjf]
    · intro qv hq
      unfold OggVorbisEncoderWrapper.validateCtor
      rw [if_neg (sr_guard_false sampleRate h1 h2),
        if_neg (nc_guard_false numChannels h3 h4), hq]
      simp only [Option.getD_some]
      rw [if_neg (by simp [JsNum.isFinite])]
      simp only [JsNum.val]
      refine ⟨_, rfl, ?_, ?_, ?_⟩
      · split_ifs with ha hb
        · exact le_refl _
        · decide
        · exact not_lt.mp ha
      · split_ifs with ha hb
        · decide
        · exact le_refl _
        · exact not_lt.mp hb
      · intro hr1 hr2
        rw [if_neg (not_lt.mpr hr1), if_neg (not_lt.mpr hr2)]
    · intro j hj hji
      unfold Mp3LameEncoderWrapper.validateCtor
      rw [if_neg (sr_guard_false sampleRate h1 h2),
        if_neg (nc_guard_false numChannels h3 h4), hj]
      simp only [Option.getD_some]
      rw [if_pos (Or.inr hji)]
    · intro bv hb hbden
      unfold Mp3LameEncoderWrapper.validateCtor
      rw [if_neg (sr_guard_false sampleRate h1 h2),
        if_neg (nc_guard_false numChannels h3 h4), hb]
      simp only [Option.getD_some]
      rw [if_neg (by simp [JsNum.isFinite, JsNum.isInteger, hbden])]
      simp only [JsNum.val]
      refine ⟨_, rfl, ?_, ?_, ?_⟩
      · split_ifs with ha hb2
        · exact le_refl _
        · decide
        · exact not_lt.mp ha
      · split_ifs with ha hb2
        · decide
        · exact le_refl _
        · exact not_lt.mp hb2
      · intro hr1 hr2
        rw [if_neg (not_lt.mpr hr1), if_neg (not_lt.mpr hr2)]

/-- C10 witness: a NaN sample rate is rejected by both constructors,
while with valid parameters an in-range quality of 1/4 and an integer
bitrate of 192 are kept as given. -/
theorem ctor_validation_witness :
    OggVorbisEncoderWrapper.validateCtor .nan (.finite 2) (some (.finite (mkRat 1 4)))
      = .error .invalidSampleRate
    ∧ OggVorbisEncoderWrapper.validateCtor (.finite 44100) (.finite 2)
        (some (.finite (mkRat 1 4))) = .ok (mkRat 1 4)
    ∧ Mp3LameEncoderWrapper.validateCtor (.finite 44100) (.finite 2)
        (some (.finite 192)) = .ok 192 := by
  obtain ⟨hbad, -, -⟩ := ctor_validation .nan (.finite 2)
    (some (.finite (mkRat 1 4))) (some (.finite 192))
  obtain ⟨-, -, hok⟩ := ctor_validation (.finite 44100) (.finite 2)
    (some (.finite (mkRat 1 4))) (some (.finite 192))
  obtain ⟨-, hq, -, hbr⟩ := hok rfl (by decide) rfl (by decide)
  obtain ⟨q0, he, -, -, hpin⟩ := hq (mkRat 1 4) rfl
  obtain ⟨b0, he2, -, -, hpin2⟩ := hbr 192 rfl (by decide)
  refine ⟨(hbad (by simp [JsNum.isFinite])).1, ?_, ?_⟩
  · rw [he, hpin (by decide) (by decide)]
  · rw [he2, hpin2 (by decide) (by decide)]
